import Mathlib

/-!
Verification of the neffos connection state machine (`_examples/advanced/ws/conn.go`)
against its natural-language specification.

The Go code is shallowly embedded: the `Conn` struct becomes a Lean structure,
each method becomes a pure function returning the updated `Conn` together with a
trace of observable effects (handler invocations, socket writes, reply-channel
deliveries).  Concurrency-only constructs (channel blocking, goroutine
interleavings) are abstracted: a channel send is an effect in the trace, user
event handlers are an oracle `Handlers` giving each `fireEvent`'s error result,
and the socket's `WriteText` outcome is an oracle `SockW`.
-/

namespace Neffos

/-- Reserved protocol event names.  Modelled from the spec: the `Message`
component (reserved events `OnNamespaceConnect` … `OnRoomLeft`, §3 of the spec)
is not under src/; the concrete string values are immaterial, only their
distinctness is used. -/
def OnNamespaceConnect : String := "_OnNamespaceConnect"

/-- Reserved event: successful namespace connection notification. -/
def OnNamespaceConnected : String := "_OnNamespaceConnected"

/-- Reserved event: namespace disconnection. -/
def OnNamespaceDisconnect : String := "_OnNamespaceDisconnect"

/-- Reserved event: room join request. -/
def OnRoomJoin : String := "_OnRoomJoin"

/-- Reserved event: room joined notification. -/
def OnRoomJoined : String := "_OnRoomJoined"

/-- Reserved event: room leave request. -/
def OnRoomLeave : String := "_OnRoomLeave"

/-- Reserved event: room left notification. -/
def OnRoomLeft : String := "_OnRoomLeft"

/-- Error values.  Modelled from the spec (§7, error kinds, and conn.go's
`ErrWrite`, `ErrBadNamespace`, `CloseError`, `context.DeadlineExceeded`):
`badNamespace` is `ErrBadNamespace`, `write` is `ErrWrite`, `closeWith code`
is a `CloseError` carrying a close-wire code, `deadlineExceeded` and
`canceled` are the context errors, and `user tag` is an arbitrary error
returned by a user event handler. -/
inductive Err where
  | badNamespace : Err
  | write : Err
  | closeWith (code : Int) : Err
  | deadlineExceeded : Err
  | canceled : Err
  | user (tag : String) : Err
deriving DecidableEq, Repr

/-- Modelled from the spec: `IsCloseError` (not under src/) recognises the
close-class transport errors (spec §7: "Close-class transport error: on
WriteText or ReadText; triggers Close"). -/
def IsCloseError : Err → Bool
  | .closeWith _ => true
  | _ => false

/-- Modelled from the spec: `isManualCloseError` (not under src/) recognises a
handler-returned error carrying a close-wire code (spec §7: "Manual-close
sentinel"). -/
def isManualCloseError : Err → Bool
  | .closeWith _ => true
  | _ => false

/-- The wire `Message` value.  Modelled from the spec (§3 "Message. Fields:
Namespace, Room, Event, Body, Err, wait, IsForced, IsLocal, IsNoOp flags,
isInvalid"): the Message component is not under src/, only its fields and
predicates are specified. -/
structure Message where
  Namespace : String := ""
  Room : String := ""
  Event : String := ""
  Body : String := ""
  Err : Option Err := none
  wait : String := ""
  IsForced : Bool := false
  IsLocal : Bool := false
  isNoOp : Bool := false
  isInvalid : Bool := false
deriving DecidableEq, Repr

/-- Modelled from the spec (§3): `isConnect()` is a predicate over `Event`. -/
def Message.isConnect (m : Message) : Bool := m.Event == OnNamespaceConnect

/-- Modelled from the spec (§3): `isDisconnect()` is a predicate over `Event`. -/
def Message.isDisconnect (m : Message) : Bool := m.Event == OnNamespaceDisconnect

/-- Modelled from the spec (§3): `isRoomJoin()` is a predicate over `Event`. -/
def Message.isRoomJoin (m : Message) : Bool := m.Event == OnRoomJoin

/-- Modelled from the spec (§3): `isRoomLeft()` is a predicate over `Event`. -/
def Message.isRoomLeft (m : Message) : Bool := m.Event == OnRoomLeft

/-- A per-namespace view over a Conn.  Modelled from the spec (§3 "NSConn.
Owns a mapping room-name → Room plus its namespace's event table"): the NSConn
component is not under src/.  The event table lives in the `Handlers` oracle,
keyed by the namespace name; the room set is the part `Conn.Write` consults. -/
structure NSConn where
  nsname : String
  rooms : List String := []
deriving DecidableEq, Repr

/-- Modelled from the spec (§4.4): `newNSConn` constructs the per-namespace
view with an empty room set. -/
def newNSConn (nsp : String) : NSConn := { nsname := nsp }

/-- Oracle for `ns.events.fireEvent(ns, msg)`: given the namespace name and
the message, the error (if any) the user handler returns.  User handlers run
arbitrary code; only their returned error feeds back into `conn.go`'s control
flow, so the model records the invocation as an effect and takes the result
from this oracle. -/
def Handlers : Type := String → Message → Option Err

/-- Oracle for the transport's `socket.WriteText` outcome on a serialized
message: `none` is success, `some e` the transport error. -/
def SockW : Type := Message → Option Err

/-- Observable effects of a `Conn` operation, in program order. -/
inductive Effect where
  | deliverReply (wait : String) (msg : Message) : Effect
  | fireEvent (nsp : String) (msg : Message) : Effect
  | wroteMessage (msg : Message) : Effect
  | wroteRaw (b : String) : Effect
  | roomJoinReply (nsp : String) (msg : Message) : Effect
  | roomLeaveReply (nsp : String) (msg : Message) : Effect
  | closedCh : Effect
  | closedSocket : Effect
  | notifiedServer : Effect
deriving DecidableEq, Repr

/-- The connection state machine's state (conn.go lines 71-106).  `server`
collapses to the boolean `isClientSide` (`IsClient()` = `server == nil`);
the two reader-writer-locked Go maps are association lists; `waitingMessages`
keeps only the registered wait tokens, since the per-token channel's identity
is captured by the token in the `deliverReply` effect; the declared
`namespaces` table keeps the declared names (the handler bodies live in the
`Handlers` oracle). -/
structure Conn where
  id : String := ""
  isClientSide : Bool := true
  namespaces : List String := []
  acknowledged : Nat := 0
  connectedNamespaces : List (String × NSConn) := []
  waitingMessages : List String := []
  closed : Nat := 0
deriving DecidableEq, Repr

/-- conn.go line 132: `IsClient` reports whether the connection is client side. -/
def Conn.IsClient (c : Conn) : Bool := c.isClientSide

/-- conn.go line 601: `IsClosed`. -/
def Conn.IsClosed (c : Conn) : Bool := c.closed > 0

/-- conn.go line 149: `isAcknowledged`. -/
def Conn.isAcknowledged (c : Conn) : Bool := c.acknowledged > 0

/-- Association-list lookup standing for a Go map read. -/
def alookup (l : List (String × NSConn)) (k : String) : Option NSConn :=
  match l with
  | [] => none
  | (k', v) :: rest => if k' == k then some v else alookup rest k

/-- Association-list delete standing for Go's `delete(m, k)`. -/
def adelete (l : List (String × NSConn)) (k : String) : List (String × NSConn) :=
  match l with
  | [] => []
  | (k', v) :: rest => if k' == k then adelete rest k else (k', v) :: adelete rest k

/-- conn.go line 302: `Namespace` reads `connectedNamespaces` under the read
lock. -/
def Conn.Namespace (c : Conn) (nsp : String) : Option NSConn :=
  alookup c.connectedNamespaces nsp

/-- The forced-disconnect handler invocation `Close` performs for one entry
of `connectedNamespaces` (conn.go lines 574-578). -/
def closeFire (q : String × NSConn) : Effect :=
  Effect.fireEvent q.2.nsname
    { Namespace := q.2.nsname, Event := OnNamespaceDisconnect,
      IsForced := true, IsLocal := true }

/-- conn.go line 570: `Close`.  On the winning 0→1 transition on `closed` it
closes `closeCh`, fires `OnNamespaceDisconnect` with `IsForced` and `IsLocal`
for every connected namespace while emptying the map, empties
`waitingMessages`, resets `acknowledged`, asynchronously notifies the owning
server (server side only), and closes the socket; otherwise it does nothing. -/
def Conn.Close (c : Conn) (_h : Handlers) : Conn × List Effect :=
  if c.closed = 0 then
    let fires := c.connectedNamespaces.map closeFire
    ({ c with connectedNamespaces := [], waitingMessages := [],
              acknowledged := 0, closed := 1 },
     Effect.closedCh :: fires
       ++ (if c.isClientSide then [] else [Effect.notifiedServer])
       ++ [Effect.closedSocket])
  else (c, [])

/-- conn.go line 493: `Write`.  Returns false when closed; for a
non-connect/non-disconnect message the namespace must be connected, and a
room-scoped message that is neither `isRoomJoin` nor `isRoomLeft` requires
the room in the NSConn's room set; then serializes and writes, and a
close-class transport error triggers `Close`.  `writeGuardFail` is the
membership guard (conn.go lines 500-515): it holds exactly when `Write` must
return false before any byte is emitted. -/
def writeGuardFail (c : Conn) (msg : Message) : Bool :=
  if !msg.isConnect && !msg.isDisconnect then
    match c.Namespace msg.Namespace with
    | none => true
    | some ns =>
      if msg.Room != "" && !msg.isRoomJoin && !msg.isRoomLeft then
        !(ns.rooms.contains msg.Room)
      else false
  else false

/-- conn.go line 493: `Write` itself; see `writeGuardFail` above for the
membership guard. -/
def Conn.Write (c : Conn) (h : Handlers) (sw : SockW) (msg : Message) :
    Conn × List Effect × Bool :=
  if c.IsClosed then (c, [], false)
  else if writeGuardFail c msg then (c, [], false)
  else
    match sw msg with
    | none => (c, [Effect.wroteMessage msg], true)
    | some e =>
      if IsCloseError e then
        let (c', effs) := c.Close h
        (c', Effect.wroteMessage msg :: effs, false)
      else (c, [Effect.wroteMessage msg], false)

/-- Association-list insert standing for Go's `m[k] = v`. -/
def ainsert (l : List (String × NSConn)) (k : String) (v : NSConn) :
    List (String × NSConn) :=
  match l with
  | [] => [(k, v)]
  | (k', v') :: rest => if k' == k then (k, v) :: rest else (k', v') :: ainsert rest k v

/-- conn.go line 310: `tryNamespace`.  Resolves the message's namespace; when
absent, writes the message back with `ErrBadNamespace` and reports failure. -/
def Conn.tryNamespace (c : Conn) (h : Handlers) (sw : SockW) (m : Message) :
    Conn × List Effect × Option NSConn :=
  match c.Namespace m.Namespace with
  | none =>
    let (c', effs, _) := c.Write h sw { m with Err := some Err.badNamespace }
    (c', effs, none)
  | some ns => (c, [], some ns)

/-- conn.go line 374: `replyConnect`.  Handles an inbound connect ask: no-op
asks are dropped; an already-connected namespace is answered `isNoOp`; an
undeclared one is answered `ErrBadNamespace`; otherwise the local
`OnNamespaceConnect` handler fires (an error is echoed in the reply and the
namespace is not inserted), then the NSConn is inserted, the reply written,
and `OnNamespaceConnected` fired with its error ignored. -/
def Conn.replyConnect (c : Conn) (h : Handlers) (sw : SockW) (msg : Message) :
    Conn × List Effect :=
  if msg.wait == "" || msg.isNoOp then (c, [])
  else
    match c.Namespace msg.Namespace with
    | some _ =>
      let (c', effs, _) := c.Write h sw { msg with isNoOp := true }
      (c', effs)
    | none =>
      if c.namespaces.contains msg.Namespace then
        let ns := newNSConn msg.Namespace
        match h msg.Namespace msg with
        | some e =>
          let (c', effs, _) := c.Write h sw { msg with Err := some e }
          (c', Effect.fireEvent msg.Namespace msg :: effs)
        | none =>
          let c1 := { c with
            connectedNamespaces := ainsert c.connectedNamespaces msg.Namespace ns }
          let (c2, effs, _) := c1.Write h sw msg
          (c2, Effect.fireEvent msg.Namespace msg :: effs
                ++ [Effect.fireEvent msg.Namespace { msg with Event := OnNamespaceConnected }])
      else
        let (c', effs, _) := c.Write h sw { msg with Err := some Err.badNamespace }
        (c', effs)

/-- conn.go line 459: `replyDisconnect`.  Handles an inbound disconnect ask.
Client side: delete the map entry, write the reply, fire the local handler.
Server side: fire the local handler first; on error echo it in the reply and
keep the entry, else delete the entry and write the reply. -/
def Conn.replyDisconnect (c : Conn) (h : Handlers) (sw : SockW) (msg : Message) :
    Conn × List Effect :=
  if msg.wait == "" || msg.isNoOp then (c, [])
  else
    match c.Namespace msg.Namespace with
    | none => (c, [])
    | some ns =>
      if c.IsClient then
        let c1 := { c with
          connectedNamespaces := adelete c.connectedNamespaces msg.Namespace }
        let (c2, effs, _) := c1.Write h sw msg
        (c2, effs ++ [Effect.fireEvent ns.nsname msg])
      else
        match h ns.nsname msg with
        | some e =>
          let (c2, effs, _) := c.Write h sw { msg with Err := some e }
          (c2, Effect.fireEvent ns.nsname msg :: effs)
        | none =>
          let c1 := { c with
            connectedNamespaces := adelete c.connectedNamespaces msg.Namespace }
          let (c2, effs, _) := c1.Write h sw msg
          (c2, Effect.fireEvent ns.nsname msg :: effs)

/-- conn.go line 220: `handleMessage`.  Reply correlation preempts everything:
a message carrying a registered wait token is sent on that token's channel
(`deliverReply` effect) and the function returns true.  Otherwise protocol
events are delegated, and any other event resolves the NSConn (answering
`ErrBadNamespace` when absent), clears `IsLocal` and fires the user handler;
a handler error is echoed back, and a manual-close error makes the function
return false so the reader terminates. -/
def Conn.handleMessage (c : Conn) (h : Handlers) (sw : SockW) (msg : Message) :
    Conn × List Effect × Bool :=
  if msg.wait != "" && c.waitingMessages.contains msg.wait then
    (c, [Effect.deliverReply msg.wait msg], true)
  else if msg.Event == OnNamespaceConnect then
    let (c', effs) := c.replyConnect h sw msg
    (c', effs, true)
  else if msg.Event == OnNamespaceDisconnect then
    let (c', effs) := c.replyDisconnect h sw msg
    (c', effs, true)
  else if msg.Event == OnRoomJoin then
    let (c', effs, onsc) := c.tryNamespace h sw msg
    match onsc with
    | some ns => (c', effs ++ [Effect.roomJoinReply ns.nsname msg], true)
    | none => (c', effs, true)
  else if msg.Event == OnRoomLeave then
    let (c', effs, onsc) := c.tryNamespace h sw msg
    match onsc with
    | some ns => (c', effs ++ [Effect.roomLeaveReply ns.nsname msg], true)
    | none => (c', effs, true)
  else
    let (c', effs, onsc) := c.tryNamespace h sw msg
    match onsc with
    | none => (c', effs, true)
    | some ns =>
      let msg1 := { msg with IsLocal := false }
      match h ns.nsname msg1 with
      | none => (c', effs ++ [Effect.fireEvent ns.nsname msg1], true)
      | some e =>
        let (c2, effs2, _) := c'.Write h sw { msg1 with Err := some e }
        (c2, effs ++ [Effect.fireEvent ns.nsname msg1] ++ effs2,
         !(isManualCloseError e))

/-- The decimal digit characters, `d ↦ '0' + d`, mirroring the formatting of
`strconv.FormatInt(now, 10)` digit by digit. -/
def digitChar (d : Nat) : Char := Char.ofNat (48 + d)

/-- Decimal formatting of a natural number, mirroring
`strconv.FormatInt(now, 10)` for the non-negative values `UnixNano` yields:
the base-10 digits, most significant first. -/
def formatNat (n : Nat) : String :=
  if n = 0 then "0" else String.mk (((Nat.digits 10 n).reverse).map digitChar)

/-- conn.go lines 533-537: the wait token `Ask` assigns from the current
nanosecond clock reading, prefixed `client_` on the client side. -/
def askToken (isClient : Bool) (now : Nat) : String :=
  (if isClient then "client_" else "") ++ formatNat now

/-- A non-nil Go context, reduced to the one observable `Ask` consults
synchronously: its deadline (`UnixNano`), when it has one. -/
structure Ctx where
  deadline : Option Int := none
deriving DecidableEq, Repr

/-- Outcome of the synchronous part of `Ask`: `failure e` models
`return Message{}, e` before any wait, and `awaitingReply token` models
reaching the select with `token` registered in `waitingMessages` (the reply
or context cancellation then arrives from another goroutine, outside this
sequential model). -/
inductive AskOutcome where
  | failure (e : Err) : AskOutcome
  | awaitingReply (token : String) : AskOutcome
deriving DecidableEq, Repr

/-- conn.go lines 539-547: whether the (possibly nil) context carries a
deadline lying more than one second before the current clock reading. -/
def askExpired (now : Nat) (ctx : Option Ctx) : Bool :=
  match ctx with
  | none => false
  | some cx =>
    match cx.deadline with
    | none => false
    | some d => d < (now : Int) - 1000000000

/-- conn.go line 528: `Ask`.  On a closed Conn fails with
`CloseError{Code:-1, ErrWrite}`.  Assigns the wait token from `now`
(client-prefixed on the client side).  With a non-nil context whose deadline
is more than one second before now, fails `DeadlineExceeded` before
registering or writing anything.  Otherwise registers the token in
`waitingMessages`, writes the message, and fails `ErrWrite` (without removing
the entry) when the write fails, else awaits the reply. -/
def Conn.Ask (c : Conn) (h : Handlers) (sw : SockW) (now : Nat) (ctx : Option Ctx)
    (msg : Message) : Conn × List Effect × AskOutcome :=
  if c.IsClosed then (c, [], .failure (Err.closeWith (-1)))
  else
    let tok := askToken c.IsClient now
    if askExpired now ctx then (c, [], .failure Err.deadlineExceeded)
    else
      let c1 := { c with waitingMessages := c.waitingMessages ++ [tok] }
      let r := c1.Write h sw { msg with wait := tok }
      if r.2.2 then (r.1, r.2.1, .awaitingReply tok)
      else (r.1, r.2.1, .failure Err.write)

/-- Outcome of `askConnect`.  The code past `c.Ask(ctx, connectMessage)`
(conn.go lines 345-371) depends on the peer's asynchronous reply, so the
model stops at the point wire traffic begins: `askIssued` carries the exact
connect message the code sends; `existing` is the early return of the
already-connected namespace with no traffic at all; `badNamespace` the
undeclared-namespace failure. -/
inductive ConnectOutcome where
  | existing (ns : NSConn) : ConnectOutcome
  | badNamespace : ConnectOutcome
  | askIssued (msg : Message) : ConnectOutcome
deriving DecidableEq, Repr

/-- conn.go line 328: `askConnect`.  Returns the existing NSConn when the
namespace is already connected, fails `ErrBadNamespace` when it is not
declared, and otherwise issues the connect ask over the wire. -/
def Conn.askConnect (c : Conn) (nsp : String) : ConnectOutcome :=
  match c.Namespace nsp with
  | some ns => .existing ns
  | none =>
    if c.namespaces.contains nsp then
      .askIssued { Namespace := nsp, Event := OnNamespaceConnect, IsLocal := true }
    else .badNamespace

/-- conn.go line 266: `Connect`.  A server-side Conn first polls (15 ms grain)
until `acknowledged` is set; the poll never returning in this sequential
model is `none`.  Then delegates to `askConnect`. -/
def Conn.Connect (c : Conn) (nsp : String) : Option ConnectOutcome :=
  if !c.IsClient && !c.isAcknowledged then none
  else some (c.askConnect nsp)

/-- conn.go line 427: `askDisconnect`.  The `lock` parameter only toggles
mutex acquisition and has no sequential content.  The `c.Ask` round trip
(token registration, write, reply wait) is abstracted by the `askR` oracle
giving its outcome per namespace; the post-ask local steps — deleting the map
entry and firing the local handler with `IsLocal` set — are modelled
exactly. -/
def Conn.askDisconnect (c : Conn) (askR : String → Option Err) (msg : Message) :
    Conn × List Effect × Option Err :=
  match alookup c.connectedNamespaces msg.Namespace with
  | none => (c, [], some Err.badNamespace)
  | some ns =>
    match askR msg.Namespace with
    | some e => (c, [], some e)
    | none =>
      let c1 := { c with
        connectedNamespaces := adelete c.connectedNamespaces msg.Namespace }
      (c1, [Effect.fireEvent ns.nsname { msg with IsLocal := true }], none)

/-- The traversal inside `DisconnectAll` (conn.go lines 417-422): issue
`askDisconnect` for each namespace name in turn, stopping at the first
error. -/
def disconnectAllGo (askR : String → Option Err) :
    Conn → List String → Conn × List Effect × Option Err
  | c, [] => (c, [], none)
  | c, nsp :: rest =>
    let r := c.askDisconnect askR { Event := OnNamespaceDisconnect, Namespace := nsp }
    match r.2.2 with
    | some e => (r.1, r.2.1, some e)
    | none =>
      let r2 := disconnectAllGo askR r.1 rest
      (r2.1, r.2.1 ++ r2.2.1, r2.2.2)

/-- conn.go line 412: `DisconnectAll` iterates the connected namespaces under
the write lock (the range order is modelled by the association list's order)
and returns the first `askDisconnect` error. -/
def Conn.DisconnectAll (c : Conn) (askR : String → Option Err) :
    Conn × List Effect × Option Err :=
  disconnectAllGo askR c (c.connectedNamespaces.map Prod.fst)

/-- The reader goroutine's local state (conn.go lines 159-172): the Conn and
the pre-acknowledgement message queue. -/
structure ReaderState where
  conn : Conn
  queue : List Message := []
deriving DecidableEq, Repr

/-- conn.go lines 162-171: `handleQueue` runs `handleMessage` on each queued
message in order, ignoring the returned booleans, then clears the queue
(the clearing is done by `readerStep`'s callers of this function). -/
def handleQueueRun (h : Handlers) (sw : SockW) :
    Conn → List Message → Conn × List Effect
  | c, [] => (c, [])
  | c, m :: rest =>
    let (c1, effs, _) := c.handleMessage h sw m
    let (c2, effs2) := handleQueueRun h sw c1 rest
    (c2, effs ++ effs2)

/-- conn.go line 145: the literal handshake token `ack`; inbound frames are
byte payloads, modelled as `List Char`. -/
def ackBinary : List Char := "ack".data

/-- One iteration of the reader loop (conn.go lines 174-217) on an inbound
frame `b`.  Pre-acknowledgement, an `ack`-prefixed frame drives the
handshake: the client stores the id suffix, latches `acknowledged`, answers
`ack_ok` and drains the queue; the server answers a bare `ack` with
`ack`+id, and on a longer frame (the `ack_ok`) latches and drains.  Any
other frame is parsed (`deser` stands for `deserializeMessage`, which is not
under src/); invalid frames are dropped, pre-ack frames are queued, post-ack
frames go to `handleMessage` whose boolean is the returned continue flag. -/
def readerStep (h : Handlers) (sw : SockW) (deser : List Char → Message)
    (s : ReaderState) (b : List Char) : ReaderState × List Effect × Bool :=
  if !s.conn.isAcknowledged && ackBinary.isPrefixOf b then
    if s.conn.IsClient then
      let c1 := { s.conn with id := String.mk (b.drop ackBinary.length), acknowledged := 1 }
      let r := handleQueueRun h sw c1 s.queue
      ({ conn := r.1, queue := [] }, Effect.wroteRaw "ack_ok" :: r.2, true)
    else
      if b.length == ackBinary.length then
        (s, [Effect.wroteRaw ("ack" ++ s.conn.id)], true)
      else
        let c1 := { s.conn with acknowledged := 1 }
        let r := handleQueueRun h sw c1 s.queue
        ({ conn := r.1, queue := [] }, r.2, true)
  else
    let msg := deser b
    if msg.isInvalid then (s, [], true)
    else if !s.conn.isAcknowledged then
      ({ s with queue := s.queue ++ [msg] }, [], true)
    else
      let r := s.conn.handleMessage h sw msg
      ({ conn := r.1, queue := s.queue }, r.2.1, r.2.2)

/-- The reader loop (conn.go line 153) over a list of inbound frames,
stopping when `handleMessage` returns false.  A socket read error ends the
frame list; the deferred `Close` on loop exit is outside this function. -/
def readerRun (h : Handlers) (sw : SockW) (deser : List Char → Message) :
    ReaderState → List (List Char) → ReaderState × List Effect
  | s, [] => (s, [])
  | s, b :: rest =>
    let r := readerStep h sw deser s b
    if r.2.2 then
      let r2 := readerRun h sw deser r.1 rest
      (r2.1, r.2.1 ++ r2.2)
    else (r.1, r.2.1)

/-- C1: an inbound message whose non-empty wait token is registered in
`waitingMessages` is delivered on that token's channel (the single
`deliverReply` effect — the channel send hands the message to exactly one
awaiting receiver) and `handleMessage` returns true with the Conn unchanged:
no protocol reply and no user event handler runs. -/
theorem claim_C1_reply_preemption (c : Conn) (h : Handlers) (sw : SockW)
    (msg : Message) (hw : msg.wait ≠ "") (hreg : msg.wait ∈ c.waitingMessages) :
    c.handleMessage h sw msg = (c, [Effect.deliverReply msg.wait msg], true) := by
  unfold Conn.handleMessage
  have h1 : (msg.wait != "") = true := by simpa using hw
  simp [h1, hreg]

/-- C1 witness at a concrete input. -/
theorem claim_C1_reply_preemption_witness :
    Conn.handleMessage { waitingMessages := ["7"] } (fun _ _ => none)
      (fun _ => none) { wait := "7" }
    = ({ waitingMessages := ["7"] },
       [Effect.deliverReply "7" { wait := "7" }], true) :=
  claim_C1_reply_preemption _ _ _ _ (by decide) (by simp)

/-- C4: `Write` on a non-connect/non-disconnect message whose namespace is
not connected returns false with no effects (no bytes emitted); and on a
room-scoped message that is neither `isRoomJoin` nor `isRoomLeft` whose room
is not in the sender NSConn's room set, it returns false with no effects. -/
theorem claim_C4_write_guards (c : Conn) (h : Handlers) (sw : SockW)
    (msg : Message) :
    ((!msg.isConnect && !msg.isDisconnect) = true →
       c.Namespace msg.Namespace = none →
       c.Write h sw msg = (c, [], false))
    ∧ (∀ ns, (!msg.isConnect && !msg.isDisconnect) = true →
       c.Namespace msg.Namespace = some ns →
       (msg.Room != "" && !msg.isRoomJoin && !msg.isRoomLeft) = true →
       msg.Room ∉ ns.rooms →
       c.Write h sw msg = (c, [], false)) := by
  constructor
  · intro hflags hns
    have hg : writeGuardFail c msg = true := by
      unfold writeGuardFail
      simp [hflags, hns]
    unfold Conn.Write
    by_cases hcl : c.IsClosed = true
    · simp [hcl]
    · simp [hcl, hg]
  · intro ns hflags hns hroom hmem
    have hg : writeGuardFail c msg = true := by
      unfold writeGuardFail
      simp [hflags, hns, hroom, hmem]
    unfold Conn.Write
    by_cases hcl : c.IsClosed = true
    · simp [hcl]
    · simp [hcl, hg]

/-- C4 witness at concrete inputs: namespace "x" is not connected; room "r"
is not in the room set of the connected namespace "y". -/
theorem claim_C4_write_guards_witness :
    Conn.Write {} (fun _ _ => none) (fun _ => none)
      { Namespace := "x", Event := "chat" } = ({}, [], false)
    ∧ Conn.Write { connectedNamespaces := [("y", { nsname := "y" })] }
        (fun _ _ => none) (fun _ => none)
        { Namespace := "y", Event := "chat", Room := "r" }
      = ({ connectedNamespaces := [("y", { nsname := "y" })] }, [], false) :=
  ⟨(claim_C4_write_guards {} (fun _ _ => none) (fun _ => none)
      { Namespace := "x", Event := "chat" }).1 (by decide) (by decide),
   (claim_C4_write_guards { connectedNamespaces := [("y", { nsname := "y" })] }
      (fun _ _ => none) (fun _ => none)
      { Namespace := "y", Event := "chat", Room := "r" }).2
      { nsname := "y" } (by decide) (by decide) (by decide) (by decide)⟩

/-- C6: `Ask` on an open Conn with a non-nil context whose deadline lies more
than one second before the current clock reading returns `DeadlineExceeded`
with no effects (no bytes written) and the Conn unchanged (no waiting entry
registered). -/
theorem claim_C6_ask_expired_deadline (c : Conn) (h : Handlers) (sw : SockW)
    (now : Nat) (cx : Ctx) (d : Int) (msg : Message)
    (hopen : c.IsClosed = false)
    (hd : cx.deadline = some d)
    (hlt : d < (now : Int) - 1000000000) :
    c.Ask h sw now (some cx) msg = (c, [], .failure Err.deadlineExceeded) := by
  have hexp : askExpired now (some cx) = true := by
    unfold askExpired
    simp [hd, hlt]
  unfold Conn.Ask
  simp [hopen, hexp]

/-- C6 witness: deadline 2 seconds (in nanoseconds) before a 10-second
clock. -/
theorem claim_C6_ask_expired_deadline_witness :
    Conn.Ask {} (fun _ _ => none) (fun _ => none) 10000000000
      (some { deadline := some 8000000000 }) {}
    = ({}, [], .failure Err.deadlineExceeded) :=
  claim_C6_ask_expired_deadline {} (fun _ _ => none) (fun _ => none)
    10000000000 { deadline := some 8000000000 } 8000000000 {}
    (by decide) rfl (by decide)

/-- C7: `Connect` on a namespace already present in `connectedNamespaces`
(on a client, or on an acknowledged server-side Conn, where the pre-ask poll
completes) returns the same existing NSConn: the `existing` outcome, which by
construction of the model issues no ask and carries no error. -/
theorem claim_C7_connect_idempotent (c : Conn) (nsp : String) (ns : NSConn)
    (hmem : c.Namespace nsp = some ns)
    (hready : c.IsClient = true ∨ c.isAcknowledged = true) :
    c.Connect nsp = some (ConnectOutcome.existing ns) := by
  unfold Conn.Connect Conn.askConnect
  rcases hready with hr | hr <;> simp [hr, hmem]

/-- C7 witness: namespace "chat" already connected on a client-side Conn. -/
theorem claim_C7_connect_idempotent_witness :
    Conn.Connect { connectedNamespaces := [("chat", { nsname := "chat" })] }
      "chat"
    = some (ConnectOutcome.existing { nsname := "chat" }) :=
  claim_C7_connect_idempotent _ "chat" { nsname := "chat" } (by decide)
    (Or.inl (by decide))

/-- In a map whose NSConn namespace names are distinct, the forced-disconnect
fire of each entry occurs exactly once in the fired list. -/
theorem count_closeFire_eq_one {l : List (String × NSConn)}
    (hnd : (l.map (fun q => q.2.nsname)).Nodup) {p : String × NSConn}
    (hp : p ∈ l) : (l.map closeFire).count (closeFire p) = 1 := by
  induction l with
  | nil => cases hp
  | cons q rest ih =>
    simp only [List.map_cons, List.nodup_cons] at hnd
    rcases List.mem_cons.mp hp with rfl | hp'
    · rw [List.map_cons, List.count_cons_self]
      have hnot : closeFire p ∉ rest.map closeFire := by
        intro hmem
        rcases List.mem_map.mp hmem with ⟨r, hr, he⟩
        have hname : r.2.nsname = p.2.nsname := by
          simpa [closeFire, Effect.fireEvent.injEq] using he
        exact hnd.1 (hname ▸ List.mem_map.mpr ⟨r, hr, rfl⟩)
      rw [List.count_eq_zero.mpr hnot]
    · rw [List.map_cons, List.count_cons]
      have hne : ¬(closeFire p = closeFire q) := by
        intro he
        have hname : p.2.nsname = q.2.nsname := by
          simpa [closeFire, Effect.fireEvent.injEq] using he
        exact hnd.1 (hname ▸ List.mem_map.mpr ⟨p, hp', rfl⟩)
      simp [ih hnd.2 hp', hne, Ne.symm hne]

/-- C2: the first `Close` (winning the 0→1 transition on `closed`) fires the
forced local `OnNamespaceDisconnect` exactly once per connected namespace,
empties `connectedNamespaces` and `waitingMessages`, resets `acknowledged`
to 0, and a subsequent `Close` is a no-op (state unchanged, no effects). -/
theorem claim_C2_close_idempotent (c : Conn) (h : Handlers)
    (hopen : c.closed = 0)
    (hnd : (c.connectedNamespaces.map (fun q => q.2.nsname)).Nodup) :
    (∀ p ∈ c.connectedNamespaces, ((c.Close h).2).count (closeFire p) = 1)
    ∧ (c.Close h).1.connectedNamespaces = []
    ∧ (c.Close h).1.waitingMessages = []
    ∧ (c.Close h).1.acknowledged = 0
    ∧ ((c.Close h).1).Close h = ((c.Close h).1, []) := by
  refine ⟨?_, ?_, ?_, ?_, ?_⟩
  · intro p hp
    unfold Conn.Close
    simp only [hopen, if_pos rfl]
    have h1 := count_closeFire_eq_one hnd hp
    have hhd : ¬(closeFire p = Effect.closedCh) := by simp [closeFire]
    have hsock : ¬(closeFire p = Effect.closedSocket) := by simp [closeFire]
    have hnote : ¬(closeFire p = Effect.notifiedServer) := by simp [closeFire]
    by_cases hic : c.isClientSide = true <;>
      simp [hic, List.count_cons, List.count_append, h1, hhd, hsock, hnote]
  · unfold Conn.Close; simp [hopen]
  · unfold Conn.Close; simp [hopen]
  · unfold Conn.Close; simp [hopen]
  · have hnoop : ∀ (c' : Conn), c'.closed = 1 → c'.Close h = (c', []) := by
      intro c' hc'
      unfold Conn.Close
      simp [hc']
    have h1 : (c.Close h).1.closed = 1 := by
      unfold Conn.Close; simp [hopen]
    exact hnoop _ h1

/-- C2 witness: a Conn with two connected namespaces and one pending ask. -/
theorem claim_C2_close_idempotent_witness :
    ((Conn.Close { connectedNamespaces := [("a", { nsname := "a" }), ("b", { nsname := "b" })], waitingMessages := ["t"] } (fun _ _ => none)).2).count (closeFire ("a", { nsname := "a" })) = 1
    ∧ (Conn.Close { connectedNamespaces := [("a", { nsname := "a" }), ("b", { nsname := "b" })], waitingMessages := ["t"] } (fun _ _ => none)).1.connectedNamespaces = []
    ∧ (Conn.Close { connectedNamespaces := [("a", { nsname := "a" }), ("b", { nsname := "b" })], waitingMessages := ["t"] } (fun _ _ => none)).1.waitingMessages = [] := by
  have r := claim_C2_close_idempotent
    { connectedNamespaces := [("a", { nsname := "a" }), ("b", { nsname := "b" })], waitingMessages := ["t"] }
    (fun _ _ => none) (by decide) (by decide)
  exact ⟨r.1 ("a", { nsname := "a" }) (by decide), r.2.1, r.2.2.1⟩

/-- C8: a server-side `replyDisconnect` on a connected namespace fires the
local disconnect handler first; when the handler errors, the written reply
carries that error and `connectedNamespaces` is unchanged (the handler
vetoes the disconnect); when it succeeds, the entry is deleted and then the
plain reply is written.  The transport is assumed healthy (`sw` succeeds) so
the reply write emits. -/
theorem claim_C8_server_disconnect_veto (c : Conn) (h : Handlers) (sw : SockW)
    (msg : Message) (ns : NSConn)
    (hsrv : c.IsClient = false)
    (hopen : c.IsClosed = false)
    (hwait : msg.wait ≠ "") (hnoop : msg.isNoOp = false)
    (hev : msg.Event = OnNamespaceDisconnect)
    (hns : c.Namespace msg.Namespace = some ns)
    (hsw : ∀ m, sw m = none) :
    (∀ e, h ns.nsname msg = some e →
      c.replyDisconnect h sw msg
        = (c, [Effect.fireEvent ns.nsname msg,
               Effect.wroteMessage { msg with Err := some e }]))
    ∧ (h ns.nsname msg = none →
      c.replyDisconnect h sw msg
        = ({ c with connectedNamespaces :=
               adelete c.connectedNamespaces msg.Namespace },
           [Effect.fireEvent ns.nsname msg, Effect.wroteMessage msg])) := by
  have hw : (msg.wait == "") = false := by simpa using hwait
  have hz : c.closed = 0 := by
    unfold Conn.IsClosed at hopen
    simp only [decide_eq_false_iff_not, not_lt, Nat.le_zero] at hopen
    exact hopen
  have hg : ∀ (c' : Conn) (m : Message), m.Event = msg.Event →
      writeGuardFail c' m = false := by
    intro c' m hm
    unfold writeGuardFail
    simp [Message.isDisconnect, hm, hev]
  constructor
  · intro e he
    unfold Conn.replyDisconnect
    simp only [hw, hnoop, Bool.or_self, Bool.false_eq_true, if_false, hns]
    simp only [hsrv, Bool.false_eq_true, if_false, he]
    unfold Conn.Write
    simp [Conn.IsClosed, hz, hg, hsw]
  · intro he
    unfold Conn.replyDisconnect
    simp only [hw, hnoop, Bool.or_self, Bool.false_eq_true, if_false, hns]
    simp only [hsrv, Bool.false_eq_true, if_false, he]
    unfold Conn.Write
    simp [Conn.IsClosed, hz, hg, hsw]

/-- C8 witness: namespace "n" on a server-side Conn, exercised once with a
vetoing handler and once with a succeeding one. -/
theorem claim_C8_server_disconnect_veto_witness :
    Conn.replyDisconnect
      { isClientSide := false, connectedNamespaces := [("n", { nsname := "n" })] }
      (fun _ _ => some (Err.user "veto")) (fun _ => none)
      { Namespace := "n", Event := OnNamespaceDisconnect, wait := "w" }
      = ({ isClientSide := false,
           connectedNamespaces := [("n", { nsname := "n" })] },
         [Effect.fireEvent "n"
            { Namespace := "n", Event := OnNamespaceDisconnect, wait := "w" },
          Effect.wroteMessage
            { Namespace := "n", Event := OnNamespaceDisconnect, wait := "w",
              Err := some (Err.user "veto") }])
    ∧ Conn.replyDisconnect
      { isClientSide := false, connectedNamespaces := [("n", { nsname := "n" })] }
      (fun _ _ => none) (fun _ => none)
      { Namespace := "n", Event := OnNamespaceDisconnect, wait := "w" }
      = ({ isClientSide := false, connectedNamespaces := [] },
         [Effect.fireEvent "n"
            { Namespace := "n", Event := OnNamespaceDisconnect, wait := "w" },
          Effect.wroteMessage
            { Namespace := "n", Event := OnNamespaceDisconnect, wait := "w" }]) :=
  ⟨(claim_C8_server_disconnect_veto
      { isClientSide := false, connectedNamespaces := [("n", { nsname := "n" })] }
      (fun _ _ => some (Err.user "veto")) (fun _ => none)
      { Namespace := "n", Event := OnNamespaceDisconnect, wait := "w" }
      { nsname := "n" } rfl (by decide) (by decide) rfl rfl (by decide)
      (fun _ => rfl)).1 (Err.user "veto") rfl,
   (claim_C8_server_disconnect_veto
      { isClientSide := false, connectedNamespaces := [("n", { nsname := "n" })] }
      (fun _ _ => none) (fun _ => none)
      { Namespace := "n", Event := OnNamespaceDisconnect, wait := "w" }
      { nsname := "n" } rfl (by decide) (by decide) rfl rfl (by decide)
      (fun _ => rfl)).2 rfl⟩

/-- Any `Write` either leaves `waitingMessages` untouched, or — when a
close-class transport error fired `Close` — leaves the Conn closed with
`waitingMessages` emptied. -/
theorem write_waiting_preserved (c : Conn) (h : Handlers) (sw : SockW)
    (msg : Message) :
    (c.Write h sw msg).1.waitingMessages = c.waitingMessages
    ∨ ((c.Write h sw msg).1.closed = 1
       ∧ (c.Write h sw msg).1.waitingMessages = []) := by
  unfold Conn.Write Conn.Close
  by_cases hcl : c.IsClosed = true
  · simp [hcl]
  · have hz : c.closed = 0 := by
      unfold Conn.IsClosed at hcl
      simp only [decide_eq_true_eq] at hcl
      omega
    simp only [hcl, Bool.false_eq_true, if_false]
    by_cases hg : writeGuardFail c msg = true
    · simp [hg]
    · simp only [hg, Bool.false_eq_true, if_false]
      rcases hsw : sw msg with _ | e
      · simp [hsw]
      · by_cases hce : IsCloseError e = true
        · right
          simp [hsw, hce, hz]
        · simp [hsw, hce]

/-- C9: when `Ask` passes the closed and deadline pre-checks but its internal
`Write` fails, it returns `ErrWrite` and does not remove the wait-token entry
it registered: the token is still in `waitingMessages`, except when the
failed write itself hit a close-class transport error, in which case `Close`
(not `Ask`) reaped the whole map. -/
theorem claim_C9_ask_write_fail_entry_kept (c : Conn) (h : Handlers)
    (sw : SockW) (now : Nat) (ctx : Option Ctx) (msg : Message)
    (hopen : c.IsClosed = false)
    (hfresh : ∀ cx, ctx = some cx → ∀ d, cx.deadline = some d →
       ¬(d < (now : Int) - 1000000000))
    (hwfail : (({ c with waitingMessages :=
          c.waitingMessages ++ [askToken c.IsClient now] } : Conn).Write
        h sw { msg with wait := askToken c.IsClient now }).2.2 = false) :
    (c.Ask h sw now ctx msg).2.2 = .failure Err.write
    ∧ (askToken c.IsClient now ∈ (c.Ask h sw now ctx msg).1.waitingMessages
       ∨ ((c.Ask h sw now ctx msg).1.closed = 1
          ∧ (c.Ask h sw now ctx msg).1.waitingMessages = [])) := by
  have hexp : askExpired now ctx = false := by
    unfold askExpired
    rcases ctx with _ | cx
    · rfl
    · rcases hdl : cx.deadline with _ | d
      · simp [hdl]
      · simp [hdl, hfresh cx rfl d hdl]
  unfold Conn.Ask
  simp only [hopen, Bool.false_eq_true, if_false, hexp, hwfail]
  refine ⟨by trivial, ?_⟩
  rcases write_waiting_preserved
      ({ c with waitingMessages := c.waitingMessages ++ [askToken c.IsClient now] })
      h sw { msg with wait := askToken c.IsClient now } with hpres | hclosed
  · exact Or.inl (by rw [hpres]; simp)
  · exact Or.inr hclosed

/-- C9 witness: the write fails because namespace "x" is not connected; the
registered token stays in `waitingMessages`. -/
theorem claim_C9_ask_write_fail_entry_kept_witness :
    (Conn.Ask {} (fun _ _ => none) (fun _ => none) 5 none
      { Namespace := "x", Event := "chat" }).2.2 = .failure Err.write
    ∧ (askToken true 5 ∈ (Conn.Ask {} (fun _ _ => none) (fun _ => none) 5 none
        { Namespace := "x", Event := "chat" }).1.waitingMessages
       ∨ ((Conn.Ask {} (fun _ _ => none) (fun _ => none) 5 none
            { Namespace := "x", Event := "chat" }).1.closed = 1
          ∧ (Conn.Ask {} (fun _ _ => none) (fun _ => none) 5 none
              { Namespace := "x", Event := "chat" }).1.waitingMessages = [])) :=
  claim_C9_ask_write_fail_entry_kept {} (fun _ _ => none) (fun _ => none) 5
    none { Namespace := "x", Event := "chat" } (by decide)
    (by intro cx hcx; cases hcx) (by decide)

/-- The decimal-digit character map is injective on digits. -/
theorem digitChar_inj_lt : ∀ a < 10, ∀ b < 10, digitChar a = digitChar b → a = b := by
  decide

/-- No decimal digit maps to the letter the `client_` prefix starts with. -/
theorem digitChar_ne_c : ∀ d < 10, digitChar d ≠ 'c' := by
  decide

/-- Mapping `digitChar` over digit lists is injective. -/
theorem map_digitChar_inj : ∀ (as bs : List Nat), (∀ x ∈ as, x < 10) →
    (∀ x ∈ bs, x < 10) → as.map digitChar = bs.map digitChar → as = bs := by
  intro as
  induction as with
  | nil =>
    intro bs _ _ h
    cases bs with
    | nil => rfl
    | cons b bs => simp at h
  | cons a as ih =>
    intro bs ha hb h
    cases bs with
    | nil => simp at h
    | cons b bs =>
      simp only [List.map_cons, List.cons.injEq] at h
      have h1 : a = b :=
        digitChar_inj_lt a (ha a (by simp)) b (hb b (by simp)) h.1
      have h2 : as = bs :=
        ih bs (fun x hx => ha x (by simp [hx])) (fun x hx => hb x (by simp [hx])) h.2
      rw [h1, h2]

/-- Every base-10 digit of a natural number is below 10. -/
theorem digits_all_lt (n : Nat) : ∀ x ∈ Nat.digits 10 n, x < 10 :=
  fun _ hx => Nat.digits_lt_base (by norm_num) hx

/-- Only zero formats to the string "0". -/
theorem formatNat_eq_zero_str {n : Nat} (h : formatNat n = "0") : n = 0 := by
  by_contra hn
  unfold formatNat at h
  rw [if_neg hn] at h
  have hdat : List.map digitChar ((Nat.digits 10 n).reverse) = ['0'] := by
    have h0 : ("0" : String) = String.mk ['0'] := rfl
    rw [h0] at h
    have := congrArg String.data h
    simpa using this
  have hz : (['0'] : List Char) = List.map digitChar [0] := by decide
  rw [hz] at hdat
  have hrev := map_digitChar_inj ((Nat.digits 10 n).reverse) [0]
    (fun x hx => digits_all_lt n x (List.mem_reverse.mp hx)) (by decide) hdat
  have hd : Nat.digits 10 n = [0] := by
    have := congrArg List.reverse hrev
    simpa using this
  have ho := Nat.ofDigits_digits 10 n
  rw [hd] at ho
  simp [Nat.ofDigits] at ho
  exact hn ho.symm

/-- Decimal formatting of naturals is injective, mirroring that two distinct
nanosecond clock readings yield distinct `strconv`-formatted tokens. -/
theorem formatNat_injective : ∀ {m n : Nat}, formatNat m = formatNat n → m = n := by
  intro m n h
  by_cases hm : m = 0 <;> by_cases hn : n = 0
  · rw [hm, hn]
  · exfalso
    rw [hm] at h
    exact hn (formatNat_eq_zero_str h.symm)
  · exfalso
    rw [hn] at h
    exact hm (formatNat_eq_zero_str h)
  · unfold formatNat at h
    rw [if_neg hm, if_neg hn] at h
    have hdat : List.map digitChar ((Nat.digits 10 m).reverse)
        = List.map digitChar ((Nat.digits 10 n).reverse) := by
      have := congrArg String.data h
      simpa using this
    have hrev := map_digitChar_inj ((Nat.digits 10 m).reverse)
      ((Nat.digits 10 n).reverse)
      (fun x hx => digits_all_lt m x (List.mem_reverse.mp hx))
      (fun x hx => digits_all_lt n x (List.mem_reverse.mp hx)) hdat
    have hd : Nat.digits 10 m = Nat.digits 10 n := by
      have := congrArg List.reverse hrev
      simpa using this
    exact Nat.digits_inj_iff.mp hd

/-- A formatted natural never starts with the letter of `client_`. -/
theorem formatNat_no_client_prefix (n : Nat) :
    ¬ ("client_".data <+: (formatNat n).data) := by
  intro hpre
  by_cases hn : n = 0
  · rw [hn] at hpre
    have h00 : formatNat 0 = "0" := rfl
    rw [h00] at hpre
    have hlen := hpre.length_le
    revert hlen
    decide
  · unfold formatNat at hpre
    rw [if_neg hn] at hpre
    cases hrd : (Nat.digits 10 n).reverse with
    | nil =>
      have : Nat.digits 10 n = [] := by
        have := congrArg List.reverse hrd
        simpa using this
      exact hn (Nat.digits_eq_nil_iff_eq_zero.mp this)
    | cons d ds =>
      rw [hrd] at hpre
      have hcp : ('c' :: "lient_".data) <+: (digitChar d :: ds.map digitChar) := by
        simpa using hpre
      have hdc : digitChar d = 'c' := (List.cons_prefix_cons.mp hcp).1.symm
      have hdlt : d < 10 := by
        refine digits_all_lt n d (List.mem_reverse.mp ?_)
        rw [hrd]
        exact List.mem_cons_self d ds
      exact digitChar_ne_c d hdlt hdc

/-- C5: wait tokens assigned by `Ask` (which sets `msg.wait` to
`askToken (IsClient) now`) are distinct for distinct nanosecond clock
readings on the same Conn — the spec's monotonic-clock premise makes two
distinct Ask calls read distinct values — and a client-originated token
always carries the `client_` prefix while a server-originated one never
does. -/
theorem claim_C5_wait_token_unique (cl : Bool) (n1 n2 : Nat) (hne : n1 ≠ n2) :
    askToken cl n1 ≠ askToken cl n2
    ∧ "client_".data <+: (askToken true n1).data
    ∧ ¬ ("client_".data <+: (askToken false n1).data) := by
  refine ⟨?_, ?_, ?_⟩
  · intro he
    apply hne
    apply formatNat_injective
    apply String.ext
    unfold askToken at he
    have hd := congrArg String.data he
    cases cl <;> simpa using hd
  · unfold askToken
    simp only [if_pos rfl, String.data_append]
    exact List.prefix_append _ _
  · unfold askToken
    intro hpre
    refine formatNat_no_client_prefix n1 ?_
    simpa using hpre

/-- C5 witness: clock readings 1 and 2 on a server-side Conn. -/
theorem claim_C5_wait_token_unique_witness :
    askToken false 1 ≠ askToken false 2
    ∧ "client_".data <+: (askToken true 1).data
    ∧ ¬ ("client_".data <+: (askToken false 1).data) :=
  claim_C5_wait_token_unique false 1 2 (by decide)

/-- While the Conn is unacknowledged, a run of non-handshake valid frames is
queued in arrival order: the reader neither changes the Conn nor produces any
effect, it only appends the parsed messages to the queue. -/
theorem readerRun_preack (h : Handlers) (sw : SockW) (deser : List Char → Message)
    (c0 : Conn) (hack : c0.acknowledged = 0) :
    ∀ (fs : List (List Char)) (q0 : List Message) (ys : List (List Char)),
      (∀ f ∈ fs, ackBinary.isPrefixOf f = false ∧ (deser f).isInvalid = false) →
      readerRun h sw deser ⟨c0, q0⟩ (fs ++ ys)
        = readerRun h sw deser ⟨c0, q0 ++ fs.map deser⟩ ys := by
  intro fs
  induction fs with
  | nil =>
    intro q0 ys _
    simp
  | cons f fs ih =>
    intro q0 ys hf
    have hf0 := hf f (by simp)
    have hstep : readerStep h sw deser ⟨c0, q0⟩ f
        = (⟨c0, q0 ++ [deser f]⟩, [], true) := by
      unfold readerStep
      simp [Conn.isAcknowledged, hack, hf0.1, hf0.2]
    rw [List.cons_append]
    conv_lhs => unfold readerRun
    rw [hstep]
    simp only [if_pos rfl]
    rw [ih (q0 ++ [deser f]) ys (fun g hg => hf g (by simp [hg]))]
    simp [List.append_assoc]

/-- C3: starting unacknowledged with an empty queue, every inbound frame that
is not `ack`-prefixed (so neither an `ack` nor an `ack_ok` handshake frame)
and parses validly is queued, producing no handler invocation; the frame that
completes the handshake (any `ack`-prefixed frame on the client; the longer
`ack_ok` frame on the server) flips `acknowledged` and immediately drains the
queue through `handleQueueRun`, i.e. `handleMessage` runs on the queued
messages in their original arrival order. -/
theorem claim_C3_preack_queue_fifo (h : Handlers) (sw : SockW)
    (deser : List Char → Message) (c0 : Conn) (fs : List (List Char))
    (g : List Char)
    (hack : c0.acknowledged = 0)
    (hfs : ∀ f ∈ fs, ackBinary.isPrefixOf f = false ∧ (deser f).isInvalid = false)
    (hg : ackBinary.isPrefixOf g = true) :
    (c0.isClientSide = true →
      readerRun h sw deser ⟨c0, []⟩ (fs ++ [g])
        = (⟨(handleQueueRun h sw { c0 with id := String.mk (g.drop ackBinary.length), acknowledged := 1 } (fs.map deser)).1, []⟩,
           Effect.wroteRaw "ack_ok"
             :: (handleQueueRun h sw { c0 with id := String.mk (g.drop ackBinary.length), acknowledged := 1 } (fs.map deser)).2))
    ∧ (c0.isClientSide = false → g.length ≠ ackBinary.length →
      readerRun h sw deser ⟨c0, []⟩ (fs ++ [g])
        = (⟨(handleQueueRun h sw { c0 with acknowledged := 1 } (fs.map deser)).1, []⟩,
           (handleQueueRun h sw { c0 with acknowledged := 1 } (fs.map deser)).2)) := by
  have hrun := readerRun_preack h sw deser c0 hack fs [] [g] hfs
  simp only [List.nil_append] at hrun
  constructor
  · intro hcl
    rw [hrun]
    conv_lhs => unfold readerRun
    unfold readerStep
    simp [Conn.isAcknowledged, Conn.IsClient, hack, hg, hcl, readerRun]
  · intro hcl hlen
    rw [hrun]
    conv_lhs => unfold readerRun
    unfold readerStep
    simp [Conn.isAcknowledged, Conn.IsClient, hack, hg, hcl, hlen, readerRun]

/-- C3 witness: one queued frame on a client-side Conn, then the `ack`+id
frame; the queued message is handled after the flip. -/
theorem claim_C3_preack_queue_fifo_witness :
    readerRun (fun _ _ => none) (fun _ => none)
      (fun b => { Event := "evt", Namespace := "x", Body := String.mk b })
      ⟨{}, []⟩ (["m1".data] ++ ["ackc1".data])
      = (⟨(handleQueueRun (fun _ _ => none) (fun _ => none) { id := String.mk ("ackc1".data.drop ackBinary.length), acknowledged := 1 } (["m1".data].map (fun b => ({ Event := "evt", Namespace := "x", Body := String.mk b } : Message)))).1, []⟩,
         Effect.wroteRaw "ack_ok"
           :: (handleQueueRun (fun _ _ => none) (fun _ => none) { id := String.mk ("ackc1".data.drop ackBinary.length), acknowledged := 1 } (["m1".data].map (fun b => ({ Event := "evt", Namespace := "x", Body := String.mk b } : Message)))).2) :=
  (claim_C3_preack_queue_fifo (fun _ _ => none) (fun _ => none)
    (fun b => { Event := "evt", Namespace := "x", Body := String.mk b })
    {} ["m1".data] "ackc1".data rfl (by decide) (by decide)).1 rfl

/-- Deleting a key that is not among an association list's keys leaves the
list unchanged. -/
theorem adelete_of_not_mem : ∀ (l : List (String × NSConn)) (k : String),
    k ∉ l.map Prod.fst → adelete l k = l := by
  intro l
  induction l with
  | nil => intro k _; rfl
  | cons p rest ih =>
    intro k hk
    simp only [List.map_cons, List.mem_cons, not_or] at hk
    unfold adelete
    have hne : (p.1 == k) = false := by
      simp only [beq_eq_false_iff_ne, ne_eq]
      exact fun he => hk.1 he.symm
    rw [hne]
    simp [ih k hk.2]

/-- Characterisation of `DisconnectAll`'s traversal when the ask oracle
succeeds for the first `i` namespaces and fails at the `i`-th: the traversal
stops with that error, the first `i` entries are deleted, and the rest of the
map — the failing namespace included — survives. -/
theorem disconnectAllGo_spec (askR : String → Option Err) :
    ∀ (l : List (String × NSConn)) (c : Conn), c.connectedNamespaces = l →
    (l.map Prod.fst).Nodup →
    ∀ (i : Nat) (hi : i < l.length) (e : Err),
    (∀ j (hj : j < i), askR (l.get ⟨j, Nat.lt_trans hj hi⟩).1 = none) →
    askR (l.get ⟨i, hi⟩).1 = some e →
    (disconnectAllGo askR c (l.map Prod.fst)).2.2 = some e
    ∧ (disconnectAllGo askR c (l.map Prod.fst)).1.connectedNamespaces
        = l.drop i := by
  intro l
  induction l with
  | nil =>
    intro c _ _ i hi
    exact absurd hi (by simp)
  | cons p rest ih =>
    intro c hc hnd i hi e hok hfail
    simp only [List.map_cons, List.nodup_cons] at hnd
    have hlook : alookup c.connectedNamespaces p.1 = some p.2 := by
      rw [hc]
      unfold alookup
      simp
    cases i with
    | zero =>
      have hf : askR p.1 = some e := by simpa using hfail
      have hstep : c.askDisconnect askR
          { Event := OnNamespaceDisconnect, Namespace := p.1 } = (c, [], some e) := by
        unfold Conn.askDisconnect
        simp [hlook, hf]
      have hgo : disconnectAllGo askR c (p.1 :: rest.map Prod.fst)
          = (c, [], some e) := by
        unfold disconnectAllGo
        rw [hstep]
      rw [List.map_cons, hgo]
      exact ⟨rfl, hc⟩
    | succ j =>
      have h0 : askR p.1 = none := by
        have := hok 0 (Nat.succ_pos j)
        simpa using this
      have hdel : adelete c.connectedNamespaces p.1 = rest := by
        rw [hc]
        unfold adelete
        simp [adelete_of_not_mem rest p.1 hnd.1]
      have hstep : c.askDisconnect askR
          { Event := OnNamespaceDisconnect, Namespace := p.1 }
          = ({ c with connectedNamespaces := rest },
             [Effect.fireEvent p.2.nsname
               { Event := OnNamespaceDisconnect, Namespace := p.1, IsLocal := true }],
             none) := by
        unfold Conn.askDisconnect
        simp [hlook, h0, hdel]
      have hj : j < rest.length := by simpa using hi
      have hrec := ih ({ c with connectedNamespaces := rest }) rfl hnd.2 j hj e
        (fun j' hj' => by
          have := hok (j' + 1) (Nat.succ_lt_succ hj')
          simpa using this)
        (by simpa using hfail)
      have hgo : disconnectAllGo askR c (p.1 :: rest.map Prod.fst)
          = ((disconnectAllGo askR ({ c with connectedNamespaces := rest })
                (rest.map Prod.fst)).1,
             Effect.fireEvent p.2.nsname
               { Event := OnNamespaceDisconnect, Namespace := p.1, IsLocal := true }
               :: (disconnectAllGo askR ({ c with connectedNamespaces := rest })
                (rest.map Prod.fst)).2.1,
             (disconnectAllGo askR ({ c with connectedNamespaces := rest })
                (rest.map Prod.fst)).2.2) := by
        conv_lhs => unfold disconnectAllGo
        rw [hstep]
        rfl
      rw [List.map_cons, hgo]
      simpa using hrec

/-- C10: if `askDisconnect` fails partway through `DisconnectAll`'s
traversal, `DisconnectAll` returns that error immediately: the namespaces
already disconnected (the traversal prefix) are gone and not restored, while
the failing namespace and every namespace not yet visited remain in
`connectedNamespaces` — the operation is not atomic on error. -/
theorem claim_C10_disconnectAll_not_atomic (c : Conn)
    (askR : String → Option Err)
    (hnd : (c.connectedNamespaces.map Prod.fst).Nodup)
    (i : Nat) (hi : i < c.connectedNamespaces.length) (e : Err)
    (hok : ∀ j (hj : j < i),
      askR ((c.connectedNamespaces.get ⟨j, Nat.lt_trans hj hi⟩).1) = none)
    (hfail : askR ((c.connectedNamespaces.get ⟨i, hi⟩).1) = some e) :
    (c.DisconnectAll askR).2.2 = some e
    ∧ (c.DisconnectAll askR).1.connectedNamespaces
        = c.connectedNamespaces.drop i :=
  disconnectAllGo_spec askR c.connectedNamespaces c rfl hnd i hi e hok hfail

/-- C10 witness: three connected namespaces, the ask for "b" (position 1)
fails; "a" is gone, "b" and "c" remain. -/
theorem claim_C10_disconnectAll_not_atomic_witness :
    (Conn.DisconnectAll { connectedNamespaces := [("a", { nsname := "a" }), ("b", { nsname := "b" }), ("c", { nsname := "c" })] } (fun k => if k == "b" then some (Err.user "boom") else none)).2.2 = some (Err.user "boom")
    ∧ (Conn.DisconnectAll { connectedNamespaces := [("a", { nsname := "a" }), ("b", { nsname := "b" }), ("c", { nsname := "c" })] } (fun k => if k == "b" then some (Err.user "boom") else none)).1.connectedNamespaces = [("b", { nsname := "b" }), ("c", { nsname := "c" })] :=
  claim_C10_disconnectAll_not_atomic
    { connectedNamespaces := [("a", { nsname := "a" }), ("b", { nsname := "b" }), ("c", { nsname := "c" })] }
    (fun k => if k == "b" then some (Err.user "boom") else none)
    (by decide) 1 (by decide) (Err.user "boom") (by decide) (by decide)

end Neffos
